import Mathlib

/-!
Shallow embedding of the `try-continue` Rust crate (src/lib.rs).

The crate provides one method, `try_continue`, on any iterator of
`Result<T, E>`.  It wraps the iterator in a `TryContinueIter` (a struct
holding the iterator and an `err : Option<E>` slot), hands the wrapper to a
caller-supplied closure, and afterwards returns
`iter.err.map_or(Ok(iteration_output), Err)`.

Embedding choices:
* The underlying fused state of the Rust iterator is modelled as the list of
  elements it has yet to produce; `Result<T, E>` is `Except ε α`.
* `TryContinueIter::next` becomes a pure function from the adapter state to
  `Option α × TryContinueIter α ε` (the yielded item and the new state).
  Exactly as in the source, it does not consult `err` before pulling, and on
  an error element it assigns the slot unconditionally.
* The closure passed to `try_continue` can only interact with the adapter
  through `next` (the fields are private in Rust), so it is modelled as a
  deterministic state machine `Transform`: at each point it either finishes
  with a result `R` or requests one more element and feeds the answer to a
  continuation on its private state `σ`.
* Running a transform against the adapter is `runTransform`, recursive on a
  fuel bound on the number of `next` calls (a Rust closure may loop forever;
  fuel exhaustion is `none`).  It also records, as a ghost trace, the list of
  payloads the adapter yielded, in order.
-/

set_option autoImplicit false

variable {σ τ α ε R : Type}

/-- The adapter state: the remaining underlying iterator and the
captured-error slot, mirroring `struct TryContinueIter { iter: I, err: Option<E> }`. -/
structure TryContinueIter (α ε : Type) where
  iter : List (Except ε α)
  err : Option ε

/-- Mirrors `TryContinueIter::new(iter)`: the slot starts empty. -/
def TryContinueIter.new (xs : List (Except ε α)) : TryContinueIter α ε :=
  ⟨xs, none⟩

/-- Mirrors `TryContinueIter::next`:
`let res = self.iter.next()?;` then `Ok(v) => Some(v)` and
`Err(e) => { self.err = Some(e); None }`.  Note that it pulls without
checking `err`, and the assignment to the slot is unconditional. -/
def TryContinueIter.next (s : TryContinueIter α ε) : Option α × TryContinueIter α ε :=
  match s.iter with
  | [] => (none, s)
  | res :: rest =>
    match res with
    | Except.ok value => (some value, ⟨rest, s.err⟩)
    | Except.error e => (none, ⟨rest, some e⟩)

/-- A deterministic transformation function, as the closure given to
`try_continue`: from its private state it either returns a final result
(`Sum.inr r`, no further `next` call) or requests one more element
(`Sum.inl k`, the next state depending on the adapter's answer). -/
structure Transform (σ α R : Type) where
  init : σ
  step : σ → (Option α → σ) ⊕ R

/-- Run a transform's step function against the adapter.  `fuel` bounds the
number of `next` calls; `none` means the bound was hit.  On success it
returns the transform's result, the final adapter state, and the ghost trace
of payloads the adapter yielded (in order). -/
def runTransform (step : σ → (Option α → σ) ⊕ R) :
    Nat → σ → TryContinueIter α ε → Option (R × TryContinueIter α ε × List α)
  | 0, s, it =>
    match step s with
    | Sum.inr r => some (r, it, [])
    | Sum.inl _ => none
  | fuel + 1, s, it =>
    match step s with
    | Sum.inr r => some (r, it, [])
    | Sum.inl k =>
      let p := it.next
      match runTransform step fuel (k p.1) p.2 with
      | none => none
      | some (r, it2, tr) => some (r, it2, p.1.toList ++ tr)

/-- Mirrors `TryContinue::try_continue`:
`let mut iter = TryContinueIter::new(self); let out = f(&mut iter);
iter.err.map_or(Ok(out), Err)`. -/
def tryContinue (xs : List (Except ε α)) (t : Transform σ α R) (fuel : Nat) :
    Option (Except ε R) :=
  match runTransform t.step fuel t.init (TryContinueIter.new xs) with
  | none => none
  | some (r, it, _) =>
    match it.err with
    | none => some (Except.ok r)
    | some e => some (Except.error e)

/-- The error carried by the first error element of the sequence, if any. -/
def firstError (xs : List (Except ε α)) : Option ε :=
  xs.findSome? fun x =>
    match x with
    | Except.error e => some e
    | Except.ok _ => none

/-- The success payloads of a sequence of outcomes, in order. -/
def okPayloads (xs : List (Except ε α)) : List α :=
  xs.filterMap fun x =>
    match x with
    | Except.ok a => some a
    | Except.error _ => none

/-- Whether an outcome is a success. -/
def isOkElem (x : Except ε α) : Bool :=
  match x with
  | Except.ok _ => true
  | Except.error _ => false

/-- A transform that, whenever it receives the end-of-sequence answer
`none`, finishes immediately instead of requesting further elements.  Every
standard non-resuming consumer (count, sum, collect, ...) has this shape. -/
def StopsAtNone (t : Transform σ α R) : Prop :=
  ∀ s k, t.step s = Sum.inl k → ∃ r, t.step (k none) = Sum.inr r

/-- A transform that consumes the adapter to exhaustion: it starts by
requesting an element, keeps requesting after every payload, and finishes
exactly when it receives end-of-sequence. -/
def Draining (t : Transform σ α R) : Prop :=
  StopsAtNone t ∧
  (∀ s k a, t.step s = Sum.inl k → ∃ k2, t.step (k (some a)) = Sum.inl k2) ∧
  (∃ k, t.step t.init = Sum.inl k)

/-- The `Iterator::count` consumer as a transform: `Sum.inl n` is "still
counting, n seen so far", `Sum.inr n` is "finished with n". -/
def countT (α : Type) : Transform (Nat ⊕ Nat) α Nat :=
  ⟨Sum.inl 0, fun s =>
    match s with
    | Sum.inl n =>
      Sum.inl fun o =>
        match o with
        | some _ => Sum.inl (n + 1)
        | none => Sum.inr n
    | Sum.inr n => Sum.inr n⟩

/-- A closure that ignores the adapter entirely and returns 42. -/
def doneT42 : Transform Unit Nat Nat :=
  ⟨(), fun _ => Sum.inr 42⟩

/-- Running a transform directly on a plain list of payloads (an ordinary
iterator over the list, which keeps answering `none` once exhausted), with
the same fuel discipline as `runTransform`. -/
def runOnList (step : σ → (Option α → σ) ⊕ R) : Nat → σ → List α → Option R
  | 0, s, _ =>
    match step s with
    | Sum.inr r => some r
    | Sum.inl _ => none
  | fuel + 1, s, xs =>
    match step s with
    | Sum.inr r => some r
    | Sum.inl k =>
      match xs with
      | [] => runOnList step fuel (k none) []
      | a :: rest => runOnList step fuel (k (some a)) rest

@[simp]
theorem TryContinueIter.new_def (xs : List (Except ε α)) :
    TryContinueIter.new xs = (⟨xs, none⟩ : TryContinueIter α ε) := rfl

@[simp]
theorem okPayloads_nil : okPayloads ([] : List (Except ε α)) = [] := rfl

@[simp]
theorem okPayloads_cons_ok (a : α) (ys : List (Except ε α)) :
    okPayloads (Except.ok a :: ys) = a :: okPayloads ys := rfl

@[simp]
theorem okPayloads_cons_error (e : ε) (ys : List (Except ε α)) :
    okPayloads (Except.error e :: ys) = okPayloads ys := rfl

@[simp]
theorem firstError_nil : firstError ([] : List (Except ε α)) = none := rfl

@[simp]
theorem firstError_cons_ok (a : α) (ys : List (Except ε α)) :
    firstError (Except.ok a :: ys) = firstError ys := rfl

@[simp]
theorem firstError_cons_error (e : ε) (ys : List (Except ε α)) :
    firstError (Except.error e :: ys) = some e := rfl

@[simp]
theorem isOkElem_ok (a : α) : isOkElem (Except.ok a : Except ε α) = true := rfl

@[simp]
theorem isOkElem_error (e : ε) : isOkElem (Except.error e : Except ε α) = false := rfl

theorem runTransform_inr {step : σ → (Option α → σ) ⊕ R} {s : σ} {r : R}
    (h : step s = Sum.inr r) (fuel : Nat) (it : TryContinueIter α ε) :
    runTransform step fuel s it = some (r, it, []) := by
  cases fuel <;> simp [runTransform, h]

theorem runTransform_inl {step : σ → (Option α → σ) ⊕ R} {s : σ} {k : Option α → σ}
    (h : step s = Sum.inl k) (fuel : Nat) (it : TryContinueIter α ε) :
    runTransform step (fuel + 1) s it =
      match runTransform step fuel (k it.next.1) it.next.2 with
      | none => none
      | some (r, it2, tr) => some (r, it2, it.next.1.toList ++ tr) := by
  simp [runTransform, h]

/-- C6: a single call to `next` made while the captured-error slot is empty
pulls exactly one element from the underlying sequence: on an exhausted
sequence it signals end-of-sequence (state unchanged); on a success element
it yields the payload and leaves the slot empty; on an error element it
stores the error in the slot and signals end-of-sequence.  Being a total
Lean function, it raises no error itself. -/
theorem next_spec_when_err_empty (it : TryContinueIter α ε) (h : it.err = none) :
    (it.iter = [] → it.next = (none, it)) ∧
    (∀ (v : α) (rest : List (Except ε α)), it.iter = Except.ok v :: rest →
      it.next = (some v, ⟨rest, none⟩)) ∧
    (∀ (e : ε) (rest : List (Except ε α)), it.iter = Except.error e :: rest →
      it.next = (none, ⟨rest, some e⟩)) := by
  obtain ⟨ys, er⟩ := it
  simp only [TryContinueIter.err] at h
  subst h
  refine ⟨fun heq => ?_, fun v rest heq => ?_, fun e rest heq => ?_⟩ <;>
    simp only [TryContinueIter.iter] at heq <;> subst heq <;> rfl

/-- Witness for C6 at a concrete state: the adapter over `[ok 5]` with an
empty slot yields 5 and advances. -/
theorem next_spec_when_err_empty_witness :
    (⟨[Except.ok 5], none⟩ : TryContinueIter Nat Nat).next =
      (some 5, ⟨[], none⟩) :=
  (next_spec_when_err_empty ⟨[Except.ok 5], none⟩ rfl).2.1 5 [] rfl

/-- C7: the empty underlying sequence gives an adapter whose first `next`
signals end-of-sequence with the captured-error slot still empty, and
`try_continue` with the count transformation on the empty sequence returns
`Ok 0`. -/
theorem empty_sequence_behavior :
    (∀ (α ε : Type),
      (TryContinueIter.new ([] : List (Except ε α))).next =
        (none, TryContinueIter.new []) ∧
      (TryContinueIter.new ([] : List (Except ε α))).err = none) ∧
    tryContinue ([] : List (Except Nat Nat)) (countT Nat) 1 =
      some (Except.ok 0) :=
  ⟨fun _ _ => ⟨rfl, rfl⟩, rfl⟩

/-- C8: on the sequence `[error "bad"]` with the count transformation,
`try_continue` returns the failure `"bad"`, not `Ok 0`: the captured error
wins over the count computed on the zero-length observed sequence. -/
theorem single_error_count_scenario :
    tryContinue ([Except.error "bad"] : List (Except String Nat)) (countT Nat) 1 =
      some (Except.error "bad") ∧
    tryContinue ([Except.error "bad"] : List (Except String Nat)) (countT Nat) 1 ≠
      some (Except.ok 0) :=
  ⟨rfl, fun h => Except.noConfusion (Option.some.inj (rfl.trans h))⟩

/-- C9: the error reported by `try_continue` is deterministic — two
invocations on the same sequence with the same transformation (each building
a fresh adapter inside `tryContinue`) report the same error value. -/
theorem tryContinue_error_deterministic (xs : List (Except ε α))
    (t : Transform σ α R) (fuel : Nat) (e1 e2 : ε)
    (h1 : tryContinue xs t fuel = some (Except.error e1))
    (h2 : tryContinue xs t fuel = some (Except.error e2)) : e1 = e2 := by
  rw [h1] at h2
  exact Except.error.inj (Option.some.inj h2)

/-- Witness for C9: the failing run `[error 7]` with count reports 7, and
two such runs agree. -/
theorem tryContinue_error_deterministic_witness :
    tryContinue ([Except.error 7] : List (Except Nat Nat)) (countT Nat) 1 =
      some (Except.error 7) ∧ (7 : Nat) = 7 :=
  ⟨rfl, tryContinue_error_deterministic [Except.error 7] (countT Nat) 1 7 7 rfl rfl⟩

/-- C10: if the transformation finishes without ever calling `next`, the
result is `Ok` of its value for every underlying sequence — including
sequences that contain error elements — because the captured-error slot is
only written inside `next`. -/
theorem tryContinue_unconsumed_is_ok (xs : List (Except ε α))
    (t : Transform σ α R) (fuel : Nat) (r : R)
    (h : t.step t.init = Sum.inr r) :
    tryContinue xs t fuel = some (Except.ok r) := by
  unfold tryContinue
  rw [runTransform_inr h]
  rfl

/-- Witness for C10: a transformation that returns 42 without consuming the
adapter turns the failing sequence `[error 0, ok 1]` into `Ok 42`. -/
theorem tryContinue_unconsumed_is_ok_witness :
    tryContinue ([Except.error 0, Except.ok 1] : List (Except Nat Nat)) doneT42 5 =
      some (Except.ok 42) :=
  tryContinue_unconsumed_is_ok [Except.error 0, Except.ok 1] doneT42 5 42 rfl

/-- Counterexample to C1 as stated: the sequence `[error 0]` contains an
error element, yet with a transformation that consumes nothing and returns
42, `try_continue` returns `Ok 42` rather than the first error. -/
theorem tryContinue_not_always_first_error :
    Except.error 0 ∈ ([Except.error 0] : List (Except Nat Nat)) ∧
    tryContinue ([Except.error 0] : List (Except Nat Nat)) doneT42 1 ≠
      some (Except.error 0) ∧
    tryContinue ([Except.error 0] : List (Except Nat Nat)) doneT42 1 =
      some (Except.ok 42) :=
  ⟨List.mem_singleton.mpr rfl,
   fun h => Except.noConfusion (Option.some.inj (rfl.trans h)),
   rfl⟩

/-- Counterexample to C3 as stated: on the underlying sequence
`[error 0, error 1]`, the first `next` captures 0 and signals
end-of-sequence, but a second `next` call pulls again and overwrites the
slot with 1 — the captured-error slot is written twice. -/
theorem err_slot_overwritten_after_resume :
    (TryContinueIter.new ([Except.error 0, Except.error 1] :
        List (Except Nat Nat))).next.2.err = some 0 ∧
    (TryContinueIter.new ([Except.error 0, Except.error 1] :
        List (Except Nat Nat))).next.1 = none ∧
    (TryContinueIter.new ([Except.error 0, Except.error 1] :
        List (Except Nat Nat))).next.2.next.2.err = some 1 :=
  ⟨rfl, rfl, rfl⟩

/-- Counterexample to C4 as stated: on the underlying sequence
`[error 0, ok 5]` the first `next` captures the error and signals
end-of-sequence, but a second `next` call yields the payload 5, which
occurs after the first error element in sequence order. -/
theorem adapter_yields_payload_after_first_error :
    firstError ([Except.error 0, Except.ok 5] : List (Except Nat Nat)) = some 0 ∧
    (TryContinueIter.new ([Except.error 0, Except.ok 5] :
        List (Except Nat Nat))).next.1 = none ∧
    (TryContinueIter.new ([Except.error 0, Except.ok 5] :
        List (Except Nat Nat))).next.2.next.1 = some 5 :=
  ⟨rfl, rfl, rfl⟩

theorem countT_stopsAtNone (α : Type) : StopsAtNone (countT α) := by
  intro s k hs
  cases s with
  | inl n =>
    simp only [countT] at hs
    refine ⟨n, ?_⟩
    rw [← Sum.inl.inj hs]
    rfl
  | inr n => simp [countT] at hs

theorem countT_draining (α : Type) : Draining (countT α) := by
  refine ⟨countT_stopsAtNone α, ?_, ?_⟩
  · intro s k a hs
    cases s with
    | inl n =>
      simp only [countT] at hs
      rw [← Sum.inl.inj hs]
      exact ⟨_, rfl⟩
    | inr n => simp [countT] at hs
  · exact ⟨_, rfl⟩

theorem run_no_error {step : σ → (Option α → σ) ⊕ R} :
    ∀ (fuel : Nat) (s : σ) (ys : List (Except ε α)),
      (∀ e : ε, Except.error e ∉ ys) →
      Option.map (fun p => p.1) (runTransform step fuel s ⟨ys, none⟩) =
        runOnList step fuel s (okPayloads ys) ∧
      ∀ (r : R) (it : TryContinueIter α ε) (tr : List α),
        runTransform step fuel s ⟨ys, none⟩ = some (r, it, tr) → it.err = none := by
  intro fuel
  induction fuel with
  | zero =>
    intro s ys _
    cases h : step s with
    | inl k =>
      simp [runTransform, runOnList, h]
    | inr r =>
      constructor
      · simp [runTransform, runOnList, h]
      · intro r0 it tr heq
        simp [runTransform, h] at heq
        rw [← heq.2.1]
  | succ fuel ih =>
    intro s ys hmem
    cases h : step s with
    | inr r =>
      constructor
      · simp [runTransform, runOnList, h]
      · intro r0 it tr heq
        simp [runTransform, h] at heq
        rw [← heq.2.1]
    | inl k =>
      cases ys with
      | nil =>
        have hnext : (⟨[], none⟩ : TryContinueIter α ε).next =
            (none, ⟨[], none⟩) := rfl
        obtain ⟨ih1, ih2⟩ := ih (k none) [] (by simp)
        constructor
        · rw [runTransform_inl h, okPayloads_nil]
          rw [hnext] at *
          simp only [runOnList, h]
          rw [← okPayloads_nil (ε := ε) (α := α), ← ih1]
          cases hrun : runTransform step fuel (k none) ⟨[], none⟩ with
          | none => rfl
          | some p =>
            obtain ⟨r0, it0, tr0⟩ := p
            rfl
        · intro r0 it tr heq
          rw [runTransform_inl h] at heq
          rw [hnext] at heq
          cases hrun : runTransform step fuel (k none) ⟨[], none⟩ with
          | none => rw [hrun] at heq; simp at heq
          | some p =>
            obtain ⟨r1, it1, tr1⟩ := p
            rw [hrun] at heq
            simp at heq
            obtain ⟨-, hit, -⟩ := heq
            exact hit ▸ ih2 r1 it1 tr1 hrun
      | cons x rest =>
        cases x with
        | error e0 => exact absurd (List.mem_cons_self _ _) (hmem e0)
        | ok a =>
          have hmem' : ∀ e : ε, Except.error e ∉ rest := fun e hmm =>
            hmem e (List.mem_cons_of_mem _ hmm)
          have hnext : (⟨Except.ok a :: rest, none⟩ : TryContinueIter α ε).next =
              (some a, ⟨rest, none⟩) := rfl
          obtain ⟨ih1, ih2⟩ := ih (k (some a)) rest hmem'
          constructor
          · rw [runTransform_inl h, okPayloads_cons_ok]
            rw [hnext]
            simp only [runOnList, h]
            rw [← ih1]
            cases hrun : runTransform step fuel (k (some a)) ⟨rest, none⟩ with
            | none => rfl
            | some p =>
              obtain ⟨r0, it0, tr0⟩ := p
              rfl
          · intro r0 it tr heq
            rw [runTransform_inl h] at heq
            rw [hnext] at heq
            cases hrun : runTransform step fuel (k (some a)) ⟨rest, none⟩ with
            | none => rw [hrun] at heq; simp at heq
            | some p =>
              obtain ⟨r1, it1, tr1⟩ := p
              rw [hrun] at heq
              simp at heq
              obtain ⟨-, hit, -⟩ := heq
              exact hit ▸ ih2 r1 it1 tr1 hrun

/-- C2: on a sequence with no error elements, `try_continue` returns `Ok` of
exactly what the transformation computes when run directly on the list of
unwrapped success payloads (with the same fuel bound on `next` calls). -/
theorem tryContinue_no_error_runs_directly (xs : List (Except ε α))
    (t : Transform σ α R) (fuel : Nat)
    (h : ∀ e : ε, Except.error e ∉ xs) :
    tryContinue xs t fuel =
      Option.map Except.ok (runOnList t.step fuel t.init (okPayloads xs)) := by
  obtain ⟨h1, h2⟩ := run_no_error fuel t.init xs h
  unfold tryContinue
  rw [TryContinueIter.new_def]
  cases hrun : runTransform t.step fuel t.init ⟨xs, none⟩ with
  | none =>
    rw [hrun] at h1
    rw [← h1]
    rfl
  | some p =>
    obtain ⟨r, it, tr⟩ := p
    rw [hrun] at h1
    have herr := h2 r it tr hrun
    show (match it.err with
      | none => some (Except.ok r)
      | some e => some (Except.error e)) = _
    rw [herr, ← h1]
    rfl

/-- Witness for C2 on the concrete all-success sequence `[ok 1, ok 2]` with
the count transformation. -/
theorem tryContinue_no_error_runs_directly_witness :
    tryContinue ([Except.ok 1, Except.ok 2] : List (Except Nat Nat)) (countT Nat) 3 =
      Option.map Except.ok
        (runOnList (countT Nat).step 3 (countT Nat).init
          (okPayloads ([Except.ok 1, Except.ok 2] : List (Except Nat Nat)))) :=
  tryContinue_no_error_runs_directly [Except.ok 1, Except.ok 2] (countT Nat) 3
    (by intro e he; simp at he)

theorem run_draining_error {t : Transform σ α R} (h1 : StopsAtNone t)
    (h2 : ∀ s k a, t.step s = Sum.inl k → ∃ k2, t.step (k (some a)) = Sum.inl k2)
    (ys : List (Except ε α)) :
    ∀ (fuel : Nat) (s : σ) (k : Option α → σ) (e : ε),
      t.step s = Sum.inl k → firstError ys = some e → ys.length < fuel →
      ∃ (r : R) (it2 : TryContinueIter α ε) (tr : List α),
        runTransform t.step fuel s ⟨ys, none⟩ = some (r, it2, tr) ∧
        it2.err = some e := by
  induction ys with
  | nil =>
    intro fuel s k e _ he _
    rw [firstError_nil] at he
    exact Option.noConfusion he
  | cons x rest ih =>
    intro fuel s k e hs he hf
    cases fuel with
    | zero => exact absurd hf (Nat.not_lt_zero _)
    | succ f =>
      cases x with
      | error e0 =>
        rw [firstError_cons_error] at he
        obtain ⟨r, hr⟩ := h1 s k hs
        refine ⟨r, ⟨rest, some e0⟩, [], ?_, by rw [Option.some.inj he]⟩
        rw [runTransform_inl hs]
        have hnext : (⟨Except.error e0 :: rest, none⟩ : TryContinueIter α ε).next =
            (none, ⟨rest, some e0⟩) := rfl
        rw [hnext]
        rw [runTransform_inr hr]
        rfl
      | ok a =>
        rw [firstError_cons_ok] at he
        obtain ⟨k2, hk2⟩ := h2 s k a hs
        have hf' : rest.length < f := by
          simp only [List.length_cons] at hf
          omega
        obtain ⟨r, it2, tr, hrun, herr⟩ := ih f (k (some a)) k2 e hk2 he hf'
        refine ⟨r, it2, a :: tr, ?_, herr⟩
        rw [runTransform_inl hs]
        have hnext : (⟨Except.ok a :: rest, none⟩ : TryContinueIter α ε).next =
            (some a, ⟨rest, none⟩) := rfl
        rw [hnext]
        rw [hrun]
        rfl

/-- C1 amended: for a sequence containing at least one error element, and a
transformation that drains the adapter — it keeps requesting elements until
the adapter signals end-of-sequence and stops there, as count, sum or
collect do — `try_continue` returns the failure carrying the error of the
first error element, regardless of what the transformation computed.
(`xs.length < fuel` gives the run enough `next` calls to finish.) -/
theorem tryContinue_draining_first_error (xs : List (Except ε α))
    (t : Transform σ α R) (fuel : Nat) (e : ε)
    (hd : Draining t) (he : firstError xs = some e) (hf : xs.length < fuel) :
    tryContinue xs t fuel = some (Except.error e) := by
  obtain ⟨h1, h2, k0, hk0⟩ := hd
  obtain ⟨r, it2, tr, hrun, herr⟩ :=
    run_draining_error h1 h2 xs fuel t.init k0 e hk0 he hf
  unfold tryContinue
  rw [TryContinueIter.new_def, hrun]
  show (match it2.err with
    | none => some (Except.ok r)
    | some e => some (Except.error e)) = _
  rw [herr]

/-- Witness for C1 amended: counting over `[ok 1, error 9]` fails with 9,
the first (and only) error. -/
theorem tryContinue_draining_first_error_witness :
    tryContinue ([Except.ok 1, Except.error 9] : List (Except Nat Nat))
      (countT Nat) 3 = some (Except.error 9) :=
  tryContinue_draining_first_error [Except.ok 1, Except.error 9] (countT Nat) 3 9
    (countT_draining Nat) rfl (by decide)

@[simp]
theorem takeWhile_cons_ok (a : α) (ys : List (Except ε α)) :
    (Except.ok a :: ys).takeWhile isOkElem =
      Except.ok a :: ys.takeWhile isOkElem := by
  simp [List.takeWhile_cons]

@[simp]
theorem takeWhile_cons_error (e : ε) (ys : List (Except ε α)) :
    (Except.error e :: ys).takeWhile isOkElem = [] := by
  simp [List.takeWhile_cons]

theorem run_stops_invariant {t : Transform σ α R} (h1 : StopsAtNone t) :
    ∀ (fuel : Nat) (s : σ) (ys : List (Except ε α)) (r : R)
      (it : TryContinueIter α ε) (tr : List α),
      runTransform t.step fuel s ⟨ys, none⟩ = some (r, it, tr) →
      (it.err = none ∨ it.err = firstError ys) ∧
      ∃ rest, okPayloads (ys.takeWhile isOkElem) = tr ++ rest := by
  intro fuel
  induction fuel with
  | zero =>
    intro s ys r it tr heq
    cases h : t.step s with
    | inl k => simp [runTransform, h] at heq
    | inr r0 =>
      simp [runTransform, h] at heq
      obtain ⟨-, hit, htr⟩ := heq
      constructor
      · left
        rw [← hit]
      · exact ⟨okPayloads (ys.takeWhile isOkElem), by simp [htr]⟩
  | succ fuel ih =>
    intro s ys r it tr heq
    cases h : t.step s with
    | inr r0 =>
      simp [runTransform, h] at heq
      obtain ⟨-, hit, htr⟩ := heq
      constructor
      · left
        rw [← hit]
      · exact ⟨okPayloads (ys.takeWhile isOkElem), by simp [htr]⟩
    | inl k =>
      rw [runTransform_inl h] at heq
      cases ys with
      | nil =>
        have hnext : (⟨[], none⟩ : TryContinueIter α ε).next =
            (none, ⟨[], none⟩) := rfl
        rw [hnext] at heq
        obtain ⟨r0, hr0⟩ := h1 s k h
        rw [runTransform_inr hr0] at heq
        simp at heq
        obtain ⟨-, hit, htr⟩ := heq
        constructor
        · left
          rw [← hit]
        · exact ⟨[], by simp [htr]⟩
      | cons x rest2 =>
        cases x with
        | ok a =>
          have hnext : (⟨Except.ok a :: rest2, none⟩ : TryContinueIter α ε).next =
              (some a, ⟨rest2, none⟩) := rfl
          rw [hnext] at heq
          cases hrun : runTransform t.step fuel (k (some a)) ⟨rest2, none⟩ with
          | none => rw [hrun] at heq; simp at heq
          | some p =>
            obtain ⟨r1, it1, tr1⟩ := p
            rw [hrun] at heq
            simp at heq
            obtain ⟨-, hit, htr⟩ := heq
            obtain ⟨herr, rest3, hrest⟩ := ih (k (some a)) rest2 r1 it1 tr1 hrun
            constructor
            · rw [← hit, firstError_cons_ok]
              exact herr
            · refine ⟨rest3, ?_⟩
              rw [takeWhile_cons_ok, okPayloads_cons_ok, hrest, ← htr]
              rfl
        | error e0 =>
          have hnext : (⟨Except.error e0 :: rest2, none⟩ : TryContinueIter α ε).next =
              (none, ⟨rest2, some e0⟩) := rfl
          rw [hnext] at heq
          obtain ⟨r0, hr0⟩ := h1 s k h
          rw [runTransform_inr hr0] at heq
          simp at heq
          obtain ⟨-, hit, htr⟩ := heq
          constructor
          · right
            rw [← hit, firstError_cons_error]
          · exact ⟨[], by simp [htr]⟩

/-- C3 amended: the original claim fails for callers that keep calling
`next` after end-of-sequence (see the counterexample); what holds is: for
any transformation that stops requesting once it receives end-of-sequence,
the captured-error slot of the final adapter state is written at most once —
it is either still empty or holds exactly the error of the first error
element of the underlying sequence, never a later error. -/
theorem err_slot_single_write_of_stops (xs : List (Except ε α))
    (t : Transform σ α R) (fuel : Nat) (r : R) (it : TryContinueIter α ε)
    (tr : List α) (h1 : StopsAtNone t)
    (hrun : runTransform t.step fuel t.init (TryContinueIter.new xs) =
      some (r, it, tr)) :
    it.err = none ∨ it.err = firstError xs :=
  (run_stops_invariant h1 fuel t.init xs r it tr hrun).1

/-- Witness for C3 amended: counting over `[error 3, ok 1]` ends with the
slot holding 3, the first error. -/
theorem err_slot_single_write_of_stops_witness :
    (⟨[Except.ok 1], some 3⟩ : TryContinueIter Nat Nat).err = none ∨
    (⟨[Except.ok 1], some 3⟩ : TryContinueIter Nat Nat).err =
      firstError ([Except.error 3, Except.ok 1] : List (Except Nat Nat)) :=
  err_slot_single_write_of_stops [Except.error 3, Except.ok 1] (countT Nat) 2 0
    ⟨[Except.ok 1], some 3⟩ [] (countT_stopsAtNone Nat) rfl

/-- C4 amended: the original claim fails for callers that keep calling
`next` after end-of-sequence (see the counterexample); what holds is: for
any transformation that stops requesting once it receives end-of-sequence,
the trace of payloads the adapter yields during the whole run is a prefix of
the payloads lying strictly before the first error element, so no yielded
payload occurs after the first error in sequence order. -/
theorem adapter_trace_before_first_error (xs : List (Except ε α))
    (t : Transform σ α R) (fuel : Nat) (r : R) (it : TryContinueIter α ε)
    (tr : List α) (h1 : StopsAtNone t)
    (hrun : runTransform t.step fuel t.init (TryContinueIter.new xs) =
      some (r, it, tr)) :
    ∃ rest, okPayloads (xs.takeWhile isOkElem) = tr ++ rest :=
  (run_stops_invariant h1 fuel t.init xs r it tr hrun).2

/-- Witness for C4 amended: counting over `[ok 5, error 3]` yields exactly
the trace `[5]`, the payloads before the error. -/
theorem adapter_trace_before_first_error_witness :
    ∃ rest, okPayloads (([Except.ok 5, Except.error 3] :
        List (Except Nat Nat)).takeWhile isOkElem) = [5] ++ rest :=
  adapter_trace_before_first_error [Except.ok 5, Except.error 3] (countT Nat) 3 1
    ⟨[], some 3⟩ [5] (countT_stopsAtNone Nat) rfl

/-- C5: once the transformation has returned a value `r`, `try_continue`
returns `Ok r` when the adapter's captured-error slot ended empty and the
failure carrying `e` when it ended holding `e` (discarding `r`); these are
the only possible outcomes of a completed run, so the entry operation itself
introduces no further failure mode. -/
theorem tryContinue_reconciles_err_slot (xs : List (Except ε α))
    (t : Transform σ α R) (fuel : Nat) (r : R) (it : TryContinueIter α ε)
    (tr : List α)
    (hrun : runTransform t.step fuel t.init (TryContinueIter.new xs) =
      some (r, it, tr)) :
    (it.err = none → tryContinue xs t fuel = some (Except.ok r)) ∧
    ∀ e, it.err = some e → tryContinue xs t fuel = some (Except.error e) := by
  constructor
  · intro he
    unfold tryContinue
    rw [hrun]
    show (match it.err with
      | none => some (Except.ok r)
      | some e => some (Except.error e)) = _
    rw [he]
  · intro e he
    unfold tryContinue
    rw [hrun]
    show (match it.err with
      | none => some (Except.ok r)
      | some e => some (Except.error e)) = _
    rw [he]

/-- Witness for C5: the completed count run over `[ok 1]` ends with an empty
slot and `try_continue` returns `Ok 1`. -/
theorem tryContinue_reconciles_err_slot_witness :
    tryContinue ([Except.ok 1] : List (Except Nat Nat)) (countT Nat) 2 =
      some (Except.ok 1) :=
  (tryContinue_reconciles_err_slot [Except.ok 1] (countT Nat) 2 1
    ⟨[], none⟩ [1] rfl).1 rfl
